import Mathlib

/-!
# Verification of the `conf` configuration loader

A shallow embedding of `loader.go` from the `go-conf` package.  The Go
code resolves an ordered list of candidate configuration-file paths from
behaviour flags and runtime context, then reads and JSON-decodes each
candidate into a target value, recording loaded and skipped paths.

External collaborators (filesystem reads, JSON decoding, process
arguments, OS user lookup) are supplied through an explicit environment
record `Env`.  `json.Unmarshal`'s success depends only on the document
bytes and the target's static type, never on the target's current value,
so decoding is modelled by a success predicate on the document plus a
merge function applied on success.  Go panics (out-of-range string
slicing in `isTest`) are modelled by `Option`, with `none` for a panic.
-/

namespace Conf

/-- The `Loader` struct of `loader.go` (field for field). -/
structure Loader where
  RootPath : String
  PreservedArgs : Int
  lookupPaths : List String
  loadedPaths : List String
  skippedPaths : List String
  loaderFlags : Int
deriving Repr, DecidableEq

/-- Flag `UseTest int = 1 << iota` -/
def UseTest : Int := 1

/-- Flag `UseDotUser int = 1 << iota` -/
def UseDotUser : Int := 2

/-- Flag `UseArgumentPaths int = 1 << iota` -/
def UseArgumentPaths : Int := 4

/-- Flag `UseExecutablePath int = 1 << iota` -/
def UseExecutablePath : Int := 8

/-- Flag `IgnoreMissingFiles int = 1 << iota` -/
def IgnoreMissingFiles : Int := 16

/-- Flag `IgnoreInvalidFiles int = 1 << iota` -/
def IgnoreInvalidFiles : Int := 32

/-- Sentinel `UseFlag int = -1`: value for `PreservedArgs` meaning
"use `flag.Args()` as config paths". -/
def UseFlag : Int := -1

/-- The bit test `flags & behaviour > 0` underlying `Implements`. -/
def flagSet (fl behaviour : Int) : Bool :=
  Int.land fl behaviour > 0

/-- Go `func (l *Loader) Implements(behaviour int) bool`:
`l.loaderFlags & behaviour > 0`. -/
def Loader.Implements (l : Loader) (behaviour : Int) : Bool :=
  flagSet l.loaderFlags behaviour

/-- Model of Go `filepath.Join`: joins the non-empty elements with the
path separator.  (The trailing `Clean` normalisation pass of the Go
function is not modelled; every claim applies it to already-clean
segments only.) -/
def filepathJoin (elems : List String) : String :=
  String.intercalate "/" (elems.filter (fun e => e ≠ ""))

/-- The runtime context consumed by the loader, with `σ` the target
configuration type.  `readFile` returns `none` for a read error,
`decodeOk d` says whether `json.Unmarshal` accepts document `d`, and
`decodeInto d` merges document `d` into a target value (applied only
when `decodeOk d`; on a decode error `json.Unmarshal` of a malformed
document leaves the target untouched).  `currentUser` is `none` when
the OS user lookup fails. -/
structure Env (σ : Type) where
  flagArgs : List String
  osArgs : List String
  readFile : String → Option String
  decodeOk : String → Bool
  decodeInto : String → σ → σ
  currentUser : Option String

variable {σ : Type}

/-- Go `func (l *Loader) isTest() bool`: reads `os.Args[0]` and compares
`runfile[len(runfile)-5:]` with `".test"`.  `none` models the Go panic
(index out of range) when the argument vector is empty or the path is
shorter than five characters; the string slice is taken on the
character list. -/
def isTest (env : Env σ) : Option Bool :=
  match env.osArgs with
  | [] => none
  | runfile :: _ =>
      if runfile.length < 5 then none
      else some (decide (String.mk (runfile.data.drop (runfile.length - 5)) = ".test"))

/-- Model of Go `strings.TrimSpace`: removes leading and trailing
whitespace characters. -/
def trimSpace (s : String) : String :=
  String.mk (((s.data.dropWhile Char.isWhitespace).reverse.dropWhile
    Char.isWhitespace).reverse)

/-- Go `func (l *Loader) user() string`: with `UseDotUser`, a successful
read of `RootPath/.user` yields its trimmed contents; otherwise fall
back to the OS user lookup, and to `""` when that fails. -/
def Loader.user (env : Env σ) (l : Loader) : String :=
  if l.Implements UseDotUser then
    match env.readFile (filepathJoin [l.RootPath, ".user"]) with
    | some fileContents => trimSpace fileContents
    | none => (env.currentUser).getD ""
  else (env.currentUser).getD ""

/-- Outcome of the argument-paths branch of `createLookupPaths`
(lines 138-151): an early `return`, a fall-through to the default
sequence (possibly after a dead write to `lookupPaths`), or a panic
from a negative slice index. -/
inductive ArgStep (α : Type) where
  | ret : α → ArgStep α
  | fallthrough : α → ArgStep α
  | crash : ArgStep α
deriving Repr, DecidableEq

/-- Lines 138-151 of `createLookupPaths`.  In the `UseFlag` branch the
Go source assigns `l.lookupPaths = flagArgs` without a `return`, so
control continues to the default sequence; only the concrete
`PreservedArgs` branch returns early.  `os.Args[splitSize:]` with a
negative `splitSize` would panic (`crash`). -/
def argumentPathsStep (env : Env σ) (l : Loader) : ArgStep Loader :=
  if l.Implements UseArgumentPaths then
    if l.PreservedArgs = UseFlag then
      let flagArgs := env.flagArgs
      if flagArgs.length > 0 then
        ArgStep.fallthrough { l with lookupPaths := flagArgs }
      else
        ArgStep.fallthrough l
    else
      let splitSize : Int := l.PreservedArgs + 1
      if (env.osArgs.length : Int) > splitSize then
        if 0 ≤ splitSize then
          ArgStep.ret { l with lookupPaths := env.osArgs.drop splitSize.toNat }
        else ArgStep.crash
      else ArgStep.fallthrough l
  else ArgStep.fallthrough l

/-- Lines 153-165 of `createLookupPaths`: the default sequence.
`lookupPaths` is overwritten with `[RootPath/config.json]`, then at
most one mixin is appended: `test.json` when `UseTest` is set and
`isTest` holds (a panic in `isTest` propagates as `none`), else the
user mixin when the resolved user identity is non-empty. -/
def defaultLookupPaths (env : Env σ) (l : Loader) : Option Loader :=
  let base := { l with lookupPaths := [filepathJoin [l.RootPath, "config.json"]] }
  if base.Implements UseTest then
    match isTest env with
    | none => none
    | some true =>
        some { base with lookupPaths :=
          base.lookupPaths ++ [filepathJoin [base.RootPath, "config", "mixins", "test.json"]] }
    | some false =>
        let u := Loader.user env base
        if u.length > 0 then
          some { base with lookupPaths :=
            base.lookupPaths ++ [filepathJoin [base.RootPath, "config", "mixins", u ++ ".json"]] }
        else some base
  else
    let u := Loader.user env base
    if u.length > 0 then
      some { base with lookupPaths :=
        base.lookupPaths ++ [filepathJoin [base.RootPath, "config", "mixins", u ++ ".json"]] }
    else some base

/-- Go `func (l *Loader) createLookupPaths()`: the argument branch first;
on fall-through the default sequence (which overwrites any dead write
to `lookupPaths`). -/
def createLookupPaths (env : Env σ) (l : Loader) : Option Loader :=
  match argumentPathsStep env l with
  | ArgStep.ret l₁ => some l₁
  | ArgStep.crash => none
  | ArgStep.fallthrough l₁ => defaultLookupPaths env l₁

/-- The resolved user identity as a function of the configuration's
immutable fields (`user` re-expressed without the loader record; proven
equal to `Loader.user` below). -/
def resolveUser (env : Env σ) (rootPath : String) (fl : Int) : String :=
  if flagSet fl UseDotUser then
    match env.readFile (filepathJoin [rootPath, ".user"]) with
    | some fileContents => trimSpace fileContents
    | none => (env.currentUser).getD ""
  else (env.currentUser).getD ""

/-- The default base-plus-mixin sequence as a function of the
configuration's immutable fields (proven equal to the list produced by
`defaultLookupPaths` below). -/
def resolveDefaultSequence (env : Env σ) (rootPath : String) (fl : Int) :
    Option (List String) :=
  let base := [filepathJoin [rootPath, "config.json"]]
  if flagSet fl UseTest then
    match isTest env with
    | none => none
    | some true =>
        some (base ++ [filepathJoin [rootPath, "config", "mixins", "test.json"]])
    | some false =>
        let u := resolveUser env rootPath fl
        if u.length > 0 then
          some (base ++ [filepathJoin [rootPath, "config", "mixins", u ++ ".json"]])
        else some base
  else
    let u := resolveUser env rootPath fl
    if u.length > 0 then
      some (base ++ [filepathJoin [rootPath, "config", "mixins", u ++ ".json"]])
    else some base

/-- The full resolved candidate sequence as a function of the
configuration's immutable fields (proven equal to the list produced by
`createLookupPaths` below); `none` models a panic. -/
def resolveSequence (env : Env σ) (rootPath : String) (preservedArgs fl : Int) :
    Option (List String) :=
  if flagSet fl UseArgumentPaths then
    if preservedArgs = UseFlag then
      resolveDefaultSequence env rootPath fl
    else
      if (env.osArgs.length : Int) > preservedArgs + 1 then
        if 0 ≤ preservedArgs + 1 then some (env.osArgs.drop (preservedArgs + 1).toNat)
        else none
      else resolveDefaultSequence env rootPath fl
  else resolveDefaultSequence env rootPath fl

/-- The terminal error of a `Load` call, tagged with the failing path:
a file-read error or a JSON decode error. -/
inductive LoadErr where
  | readErr : String → LoadErr
  | decodeErr : String → LoadErr
deriving Repr, DecidableEq

/-- The scan over `l.lookupPaths` (lines 97-117 of `Load`): read each
candidate, decode it into the target, appending to `loadedPaths` or
`skippedPaths`, aborting with the error unless the matching tolerance
flag is set.  Returns the loader, the target value and the terminal
error (`none` on completion). -/
def loadLoop (env : Env σ) : Loader → σ → List String → Loader × σ × Option LoadErr
  | l, config, [] => (l, config, none)
  | l, config, configPath :: rest =>
      match env.readFile configPath with
      | none =>
          if ¬ l.Implements IgnoreMissingFiles then
            (l, config, some (LoadErr.readErr configPath))
          else
            loadLoop env { l with skippedPaths := l.skippedPaths ++ [configPath] } config rest
      | some configData =>
          if env.decodeOk configData then
            loadLoop env { l with loadedPaths := l.loadedPaths ++ [configPath] }
              (env.decodeInto configData config) rest
          else
            if ¬ l.Implements IgnoreInvalidFiles then
              (l, config, some (LoadErr.decodeErr configPath))
            else
              loadLoop env { l with skippedPaths := l.skippedPaths ++ [configPath] } config rest

/-- Go `func (l *Loader) Load(config) error` (the argument is an empty
interface): resolve the
lookup paths, reset `loadedPaths`/`skippedPaths`, then scan.  `none`
models a panic escaping from `createLookupPaths`. -/
def Load (env : Env σ) (l : Loader) (config : σ) : Option (Loader × σ × Option LoadErr) :=
  match createLookupPaths env l with
  | none => none
  | some l₁ =>
      some (loadLoop env { l₁ with loadedPaths := [], skippedPaths := [] } config l₁.lookupPaths)

/-- Go `func (l *Loader) LoadedPaths() []string` -/
def Loader.LoadedPaths (l : Loader) : List String := l.loadedPaths

/-- Go `func (l *Loader) SkippedPaths() []string` -/
def Loader.SkippedPaths (l : Loader) : List String := l.skippedPaths

/-- Go `func NewLoader(flags int) (*Loader, error)`: sets the flag bits,
`PreservedArgs = UseFlag`, and the root path (the executable folder
when `UseExecutablePath` is set, propagating a lookup failure,
otherwise `"."`). -/
def NewLoader (executableFolder : Option String) (flags : Int) : Option Loader :=
  let loader : Loader :=
    { RootPath := "", PreservedArgs := UseFlag, lookupPaths := [],
      loadedPaths := [], skippedPaths := [], loaderFlags := flags }
  if loader.Implements UseExecutablePath then
    match executableFolder with
    | none => none
    | some folder => some { loader with RootPath := folder }
  else some { loader with RootPath := "." }

/-! ## Concrete environments (used by the witnesses) -/

/-- A base runtime context over `Nat` targets: every read fails, every
decode fails, no OS user, a one-element argument vector. -/
def baseEnv : Env Nat :=
  { flagArgs := []
    osArgs := ["prog"]
    readFile := fun _ => none
    decodeOk := fun _ => false
    decodeInto := fun _ s => s
    currentUser := none }

/-- A base loader: root `"."`, sentinel `PreservedArgs`, no flags. -/
def baseLoader : Loader :=
  { RootPath := "."
    PreservedArgs := UseFlag
    lookupPaths := []
    loadedPaths := []
    skippedPaths := []
    loaderFlags := 0 }

def exEnv1 : Env Nat := { baseEnv with flagArgs := ["a.json"] }

def exLoader1 : Loader := { baseLoader with loaderFlags := UseArgumentPaths }

def exEnv5 : Env Nat := { baseEnv with osArgs := ["prog.test"] }

def exLoader5 : Loader := { baseLoader with RootPath := "r", loaderFlags := UseTest }

def exLoader5' : Loader :=
  { exLoader5 with lookupPaths := ["r/config.json", "r/config/mixins/test.json"] }

def exEnv6 : Env Nat :=
  { baseEnv with
    readFile := fun p => if p = "r/.user" then some "alice\n" else none
    currentUser := some "bob" }

def exLoader6 : Loader := { baseLoader with RootPath := "r", loaderFlags := UseDotUser }

def exEnv7 : Env Nat := { baseEnv with osArgs := ["prog", "keep", "a.json", "b.json"] }

def exLoader7 : Loader :=
  { baseLoader with PreservedArgs := 1, loaderFlags := UseArgumentPaths }

def exLoader8 : Loader := { baseLoader with RootPath := "root" }

def exLoader8' : Loader := { exLoader8 with lookupPaths := ["root/config.json"] }

def exEnv10 : Env Nat := { baseEnv with osArgs := ["x.test"] }

def exEnv10b : Env Nat := { baseEnv with osArgs := ["a.b"] }

/-- A candidate path whose read and decode both succeed in `env`. -/
def goodPathB (env : Env σ) (p : String) : Bool :=
  match env.readFile p with
  | some d => env.decodeOk d
  | none => false

/-- A candidate path whose read fails, or whose document fails to
decode, in `env`. -/
def badPathB (env : Env σ) (p : String) : Bool :=
  match env.readFile p with
  | some d => !env.decodeOk d
  | none => true

def exEnv2 : Env Nat :=
  { baseEnv with
    osArgs := ["prog", "A", "B"]
    readFile := fun p => if p = "A" then some "da" else if p = "B" then some "db" else none
    decodeOk := fun d => d == "da"
    decodeInto := fun d s => s + d.length }

def exLoader2 : Loader :=
  { baseLoader with
    PreservedArgs := 0
    loaderFlags := Int.lor UseArgumentPaths IgnoreInvalidFiles }

def exLoadOut2 : Loader :=
  { exLoader2 with lookupPaths := ["A", "B"], loadedPaths := ["A"], skippedPaths := ["B"] }

def exEnv3 : Env Nat :=
  { baseEnv with
    osArgs := ["prog", "A", "B", "C"]
    readFile := fun p => if p = "A" then some "da" else none
    decodeOk := fun d => d == "da"
    decodeInto := fun d s => s + d.length }

def exLoader3 : Loader :=
  { baseLoader with PreservedArgs := 0, loaderFlags := UseArgumentPaths }

def exLr3 : Loader := { exLoader3 with lookupPaths := ["A", "B", "C"] }

def exL13 : Loader := { exLr3 with loadedPaths := ["A"] }

def exLr4 : Loader := { exLoader3 with lookupPaths := ["A", "B"] }

/-! ## Helper lemmas -/

/-- Lemma: `Implements` only reads the flag bits. -/
lemma Implements_of_flags_eq {l l' : Loader} (h : l'.loaderFlags = l.loaderFlags)
    (b : Int) : l'.Implements b = l.Implements b := by
  simp [Loader.Implements, h]

@[simp] lemma Implements_update_lookupPaths (l : Loader) (lp : List String) (b : Int) :
    Loader.Implements { l with lookupPaths := lp } b = l.Implements b := rfl

@[simp] lemma user_update_lookupPaths (env : Env σ) (l : Loader) (lp : List String) :
    Loader.user env { l with lookupPaths := lp } = Loader.user env l := rfl

/-- Case analysis of the default sequence (lines 153-165): the base
path first, then at most one mixin, chosen by the test predicate and
then the resolved user identity. -/
lemma defaultLookupPaths_cases (env : Env σ) (l l' : Loader)
    (h : defaultLookupPaths env l = some l') :
    l'.RootPath = l.RootPath ∧ l'.loaderFlags = l.loaderFlags ∧
    l'.loadedPaths = l.loadedPaths ∧ l'.skippedPaths = l.skippedPaths ∧
    l'.PreservedArgs = l.PreservedArgs ∧
    ((l.Implements UseTest = true ∧ isTest env = some true ∧
        l'.lookupPaths = [filepathJoin [l.RootPath, "config.json"],
          filepathJoin [l.RootPath, "config", "mixins", "test.json"]]) ∨
     (¬(l.Implements UseTest = true ∧ isTest env = some true) ∧
        (Loader.user env l).length > 0 ∧
        l'.lookupPaths = [filepathJoin [l.RootPath, "config.json"],
          filepathJoin [l.RootPath, "config", "mixins", Loader.user env l ++ ".json"]]) ∨
     (¬(l.Implements UseTest = true ∧ isTest env = some true) ∧
        (Loader.user env l).length = 0 ∧
        l'.lookupPaths = [filepathJoin [l.RootPath, "config.json"]])) := by
  dsimp only [defaultLookupPaths] at h
  simp only [Implements_update_lookupPaths, user_update_lookupPaths] at h
  by_cases ht : l.Implements UseTest = true
  · rw [if_pos ht] at h
    cases hit : isTest (σ := σ) env with
    | none => rw [hit] at h; cases h
    | some b =>
        rw [hit] at h
        cases b with
        | true =>
            simp only [Option.some.injEq] at h
            subst h
            refine ⟨rfl, rfl, rfl, rfl, rfl, Or.inl ⟨ht, rfl, rfl⟩⟩
        | false =>
            by_cases hu : (Loader.user env l).length > 0
            · rw [if_pos hu] at h
              simp only [Option.some.injEq] at h
              subst h
              exact ⟨rfl, rfl, rfl, rfl, rfl, Or.inr (Or.inl ⟨by simp, hu, rfl⟩)⟩
            · rw [if_neg hu] at h
              simp only [Option.some.injEq] at h
              subst h
              exact ⟨rfl, rfl, rfl, rfl, rfl,
                Or.inr (Or.inr ⟨by simp, Nat.eq_zero_of_not_pos hu, rfl⟩)⟩
  · rw [if_neg ht] at h
    by_cases hu : (Loader.user env l).length > 0
    · rw [if_pos hu] at h
      simp only [Option.some.injEq] at h
      subst h
      exact ⟨rfl, rfl, rfl, rfl, rfl, Or.inr (Or.inl ⟨fun hc => ht hc.1, hu, rfl⟩)⟩
    · rw [if_neg hu] at h
      simp only [Option.some.injEq] at h
      subst h
      exact ⟨rfl, rfl, rfl, rfl, rfl,
        Or.inr (Or.inr ⟨fun hc => ht hc.1, Nat.eq_zero_of_not_pos hu, rfl⟩)⟩

/-- Lemma: `Loader.user` only reads the root path and the flag bits. -/
lemma user_eq_resolveUser (env : Env σ) (l : Loader) :
    Loader.user env l = resolveUser env l.RootPath l.loaderFlags := rfl

/-- Lemma: `defaultLookupPaths` computes `resolveDefaultSequence` and stores it
in `lookupPaths`. -/
lemma defaultLookupPaths_eq (env : Env σ) (l : Loader) :
    defaultLookupPaths env l =
      (resolveDefaultSequence env l.RootPath l.loaderFlags).map
        (fun ps => { l with lookupPaths := ps }) := by
  dsimp only [defaultLookupPaths, resolveDefaultSequence]
  simp only [Implements_update_lookupPaths, user_update_lookupPaths]
  rw [user_eq_resolveUser]
  simp only [Loader.Implements]
  by_cases ht : flagSet l.loaderFlags UseTest = true
  · rw [if_pos ht, if_pos ht]
    cases hit : isTest (σ := σ) env with
    | none => rfl
    | some bb =>
        cases bb with
        | true => rfl
        | false =>
            by_cases hu : (resolveUser env l.RootPath l.loaderFlags).length > 0
            · rw [if_pos hu, if_pos hu]; rfl
            · rw [if_neg hu, if_neg hu]; rfl
  · rw [if_neg ht, if_neg ht]
    by_cases hu : (resolveUser env l.RootPath l.loaderFlags).length > 0
    · rw [if_pos hu, if_pos hu]; rfl
    · rw [if_neg hu, if_neg hu]; rfl

/-- Lemma: `createLookupPaths` computes `resolveSequence` and stores it in
`lookupPaths`; every other field is untouched. -/
lemma createLookupPaths_eq (env : Env σ) (l : Loader) :
    createLookupPaths env l =
      (resolveSequence env l.RootPath l.PreservedArgs l.loaderFlags).map
        (fun ps => { l with lookupPaths := ps }) := by
  dsimp only [createLookupPaths, argumentPathsStep, resolveSequence]
  simp only [Loader.Implements]
  by_cases hA : flagSet l.loaderFlags UseArgumentPaths = true
  · rw [if_pos hA, if_pos hA]
    by_cases hS : l.PreservedArgs = UseFlag
    · rw [if_pos hS, if_pos hS]
      by_cases hF : env.flagArgs.length > 0
      · rw [if_pos hF]
        show defaultLookupPaths env { l with lookupPaths := env.flagArgs } = _
        rw [defaultLookupPaths_eq]
      · rw [if_neg hF]
        show defaultLookupPaths env l = _
        rw [defaultLookupPaths_eq]
    · rw [if_neg hS, if_neg hS]
      by_cases hL : (env.osArgs.length : Int) > l.PreservedArgs + 1
      · rw [if_pos hL, if_pos hL]
        by_cases hZ : (0 : Int) ≤ l.PreservedArgs + 1
        · rw [if_pos hZ, if_pos hZ]; rfl
        · rw [if_neg hZ, if_neg hZ]; rfl
      · rw [if_neg hL, if_neg hL]
        show defaultLookupPaths env l = _
        rw [defaultLookupPaths_eq]
  · rw [if_neg hA, if_neg hA]
    show defaultLookupPaths env l = _
    rw [defaultLookupPaths_eq]

/-! ## Claims about path resolution -/

/-- C5: whenever the default sequence is used, at most one mixin path
follows the base: `test.json` when `UseTest` is set and the test
predicate holds (regardless of user identity); else the user mixin
when the resolved identity is non-empty; else nothing. -/
theorem default_sequence_mixin_cases (env : Env σ) (l l' : Loader)
    (h : defaultLookupPaths env l = some l') :
    (l.Implements UseTest = true ∧ isTest env = some true ∧
        l'.lookupPaths = [filepathJoin [l.RootPath, "config.json"],
          filepathJoin [l.RootPath, "config", "mixins", "test.json"]]) ∨
    (¬(l.Implements UseTest = true ∧ isTest env = some true) ∧
        (Loader.user env l).length > 0 ∧
        l'.lookupPaths = [filepathJoin [l.RootPath, "config.json"],
          filepathJoin [l.RootPath, "config", "mixins", Loader.user env l ++ ".json"]]) ∨
    (¬(l.Implements UseTest = true ∧ isTest env = some true) ∧
        (Loader.user env l).length = 0 ∧
        l'.lookupPaths = [filepathJoin [l.RootPath, "config.json"]]) :=
  (defaultLookupPaths_cases env l l' h).2.2.2.2.2

/-- C7: with `UseArgumentPaths`, a concrete `PreservedArgs = k ≥ 0` and
more than `k + 1` raw arguments, the candidate sequence is exactly the
raw arguments from index `k + 1` onward. -/
theorem argument_paths_concrete_split (env : Env σ) (l : Loader)
    (hflag : l.Implements UseArgumentPaths = true)
    (hk : 0 ≤ l.PreservedArgs)
    (hlen : l.PreservedArgs + 1 < (env.osArgs.length : Int)) :
    createLookupPaths env l =
      some { l with lookupPaths := env.osArgs.drop (l.PreservedArgs + 1).toNat } := by
  have hne : ¬ l.PreservedArgs = UseFlag := by
    intro hh
    rw [hh] at hk
    norm_num [UseFlag] at hk
  have hnn : (0 : Int) ≤ l.PreservedArgs + 1 := by linarith
  unfold createLookupPaths argumentPathsStep
  simp [hflag, hne, hlen, hnn]

/-- C8: without `UseArgumentPaths`, the first resolved candidate is
always `RootPath/config.json`. -/
theorem first_candidate_is_base (env : Env σ) (l l' : Loader)
    (hflag : l.Implements UseArgumentPaths = false)
    (h : createLookupPaths env l = some l') :
    l'.lookupPaths.head? = some (filepathJoin [l.RootPath, "config.json"]) := by
  unfold createLookupPaths argumentPathsStep at h
  rw [hflag] at h
  simp only [Bool.false_eq_true, if_false] at h
  rcases (defaultLookupPaths_cases env l l' h).2.2.2.2.2 with
    ⟨_, _, hl⟩ | ⟨_, _, hl⟩ | ⟨_, _, hl⟩ <;> simp [hl]

/-- C6: user identity resolution: a successful `.user` read under
`UseDotUser` yields its trimmed contents (the OS lookup is never
consulted — the equality holds for every value of `currentUser`);
otherwise the OS user name; the empty string when that lookup fails. -/
theorem user_identity_resolution (env : Env σ) (l : Loader) :
    (∀ contents, l.Implements UseDotUser = true →
        env.readFile (filepathJoin [l.RootPath, ".user"]) = some contents →
        Loader.user env l = trimSpace contents) ∧
    (∀ u, (l.Implements UseDotUser = false ∨
          env.readFile (filepathJoin [l.RootPath, ".user"]) = none) →
        env.currentUser = some u → Loader.user env l = u) ∧
    ((l.Implements UseDotUser = false ∨
        env.readFile (filepathJoin [l.RootPath, ".user"]) = none) →
      env.currentUser = none → Loader.user env l = "") := by
  refine ⟨?_, ?_, ?_⟩
  · intro contents hdot hread
    simp [Loader.user, hdot, hread]
  · rintro u (hdot | hread) hcur
    · simp [Loader.user, hdot, hcur]
    · by_cases hdot : l.Implements UseDotUser = true
      · simp [Loader.user, hdot, hread, hcur]
      · simp only [Bool.not_eq_true] at hdot
        simp [Loader.user, hdot, hcur]
  · rintro (hdot | hread) hcur
    · simp [Loader.user, hdot, hcur]
    · by_cases hdot : l.Implements UseDotUser = true
      · simp [Loader.user, hdot, hread, hcur]
      · simp only [Bool.not_eq_true] at hdot
        simp [Loader.user, hdot, hcur]

/-- C10: `isTest` faults (models the Go string-index panic) whenever
the invocation path is shorter than five characters, and under the
length precondition it returns `true` exactly when the path ends in
`".test"`. -/
theorem isTest_totality_and_suffix (env : Env σ) (runfile : String) (rest : List String)
    (h : env.osArgs = runfile :: rest) :
    (runfile.length < 5 → isTest env = none) ∧
    (5 ≤ runfile.length →
      (isTest env = some true ↔ ".test".data <:+ runfile.data)) := by
  constructor
  · intro hlen
    simp [isTest, h, hlen]
  · intro hlen
    have hnotlt : ¬ runfile.length < 5 := not_lt.mpr hlen
    simp only [isTest, h, if_neg hnotlt, Option.some.injEq]
    constructor
    · intro hsome
      have hd : String.mk (runfile.data.drop (runfile.length - 5)) = ".test" :=
        of_decide_eq_true hsome
      have hdata : runfile.data.drop (runfile.length - 5) = ".test".data := by
        simpa using congrArg String.data hd
      refine ⟨runfile.data.take (runfile.length - 5), ?_⟩
      calc runfile.data.take (runfile.length - 5) ++ ".test".data
          = runfile.data.take (runfile.length - 5) ++
              runfile.data.drop (runfile.length - 5) := by rw [hdata]
        _ = runfile.data := List.take_append_drop _ _
    · rintro ⟨t, ht⟩
      have hlen' : runfile.length = t.length + 5 := by
        have hcg := congrArg List.length ht
        have h5 : (".test".data).length = 5 := rfl
        simp only [List.length_append, h5] at hcg
        have hrl : runfile.length = runfile.data.length := rfl
        omega
      have hdrop : runfile.data.drop (runfile.length - 5) = ".test".data := by
        rw [hlen', Nat.add_sub_cancel, ← ht, List.drop_left]
      rw [hdrop]
      exact decide_eq_true rfl

/-! ## Evaluations and witnesses -/

/-- C1: evaluating the resolver at a sentinel-mode configuration with a
non-empty flag remainder: the remainder is NOT the resolved sequence —
the source assigns it to `lookupPaths` without a `return`, so the
default sequence overwrites it (contradicting the `UseArgumentPaths`
doc comment, which promises the fallback only for an empty
remainder). -/
theorem sentinel_remainder_is_overwritten :
    exLoader1.Implements UseArgumentPaths = true ∧
    exLoader1.PreservedArgs = UseFlag ∧
    exEnv1.flagArgs = ["a.json"] ∧
    (createLookupPaths exEnv1 exLoader1).map Loader.lookupPaths = some ["./config.json"] ∧
    (createLookupPaths exEnv1 exLoader1).map Loader.lookupPaths ≠ some exEnv1.flagArgs :=
  ⟨by decide, by decide, rfl, by rfl, by decide⟩

/-- Witness for C5 at a test-mode configuration. -/
theorem default_sequence_mixin_cases_witness :
    (exLoader5.Implements UseTest = true ∧ isTest exEnv5 = some true ∧
        exLoader5'.lookupPaths = [filepathJoin [exLoader5.RootPath, "config.json"],
          filepathJoin [exLoader5.RootPath, "config", "mixins", "test.json"]]) ∨
    (¬(exLoader5.Implements UseTest = true ∧ isTest exEnv5 = some true) ∧
        (Loader.user exEnv5 exLoader5).length > 0 ∧
        exLoader5'.lookupPaths = [filepathJoin [exLoader5.RootPath, "config.json"],
          filepathJoin [exLoader5.RootPath, "config", "mixins",
            Loader.user exEnv5 exLoader5 ++ ".json"]]) ∨
    (¬(exLoader5.Implements UseTest = true ∧ isTest exEnv5 = some true) ∧
        (Loader.user exEnv5 exLoader5).length = 0 ∧
        exLoader5'.lookupPaths = [filepathJoin [exLoader5.RootPath, "config.json"]]) :=
  default_sequence_mixin_cases exEnv5 exLoader5 exLoader5' (by rfl)

/-- Witness for C6: a dot-file reading `"alice\n"` resolves to the
trimmed identity `"alice"`, even though an OS user exists. -/
theorem user_identity_resolution_witness :
    exLoader6.Implements UseDotUser = true ∧
    exEnv6.readFile (filepathJoin [exLoader6.RootPath, ".user"]) = some "alice\n" ∧
    Loader.user exEnv6 exLoader6 = trimSpace "alice\n" ∧
    trimSpace "alice\n" = "alice" :=
  ⟨by decide, by rfl,
    (user_identity_resolution exEnv6 exLoader6).1 "alice\n" (by decide) (by rfl), by decide⟩

/-- Witness for C7 with `PreservedArgs = 1` and four raw arguments. -/
theorem argument_paths_concrete_split_witness :
    exLoader7.Implements UseArgumentPaths = true ∧
    0 ≤ exLoader7.PreservedArgs ∧
    exLoader7.PreservedArgs + 1 < (exEnv7.osArgs.length : Int) ∧
    createLookupPaths exEnv7 exLoader7 =
      some { exLoader7 with
               lookupPaths := exEnv7.osArgs.drop (exLoader7.PreservedArgs + 1).toNat } :=
  ⟨by decide, by decide, by decide,
    argument_paths_concrete_split exEnv7 exLoader7 (by decide) (by decide) (by decide)⟩

/-- Witness for C8 at a flagless loader. -/
theorem first_candidate_is_base_witness :
    exLoader8.Implements UseArgumentPaths = false ∧
    createLookupPaths baseEnv exLoader8 = some exLoader8' ∧
    exLoader8'.lookupPaths.head? = some (filepathJoin [exLoader8.RootPath, "config.json"]) :=
  ⟨by decide, by rfl,
    first_candidate_is_base baseEnv exLoader8 exLoader8' (by decide) (by rfl)⟩

/-- Witness for C10: a six-character `.test` path satisfies the
predicate; a three-character path faults. -/
theorem isTest_totality_and_suffix_witness :
    isTest exEnv10 = some true ∧ isTest exEnv10b = none :=
  ⟨((isTest_totality_and_suffix exEnv10 "x.test" [] rfl).2 (by decide)).mpr
      ⟨"x".data, by decide⟩,
    (isTest_totality_and_suffix exEnv10b "a.b" [] rfl).1 (by decide)⟩

/-! ## The load loop -/

/-- The scan's accounting invariant: the loader's two result lists grow
by suffixes `dl`/`ds` that are ordered sub-sequences of the scanned
paths, every loaded path reads and decodes, every skipped path fails,
and on a `none` outcome every scanned path was classified. -/
lemma loadLoop_invariant (env : Env σ) (paths : List String) :
    ∀ (l : Loader) (config : σ),
      ∃ dl ds,
        (loadLoop env l config paths).1.loadedPaths = l.loadedPaths ++ dl ∧
        (loadLoop env l config paths).1.skippedPaths = l.skippedPaths ++ ds ∧
        (loadLoop env l config paths).1.lookupPaths = l.lookupPaths ∧
        (loadLoop env l config paths).1.loaderFlags = l.loaderFlags ∧
        dl.Sublist paths ∧ ds.Sublist paths ∧
        (∀ p ∈ dl, goodPathB env p = true) ∧
        (∀ p ∈ ds, badPathB env p = true) ∧
        ((loadLoop env l config paths).2.2 = none → ∀ p ∈ paths, p ∈ dl ∨ p ∈ ds) := by
  induction paths with
  | nil =>
      intro l config
      refine ⟨[], [], ?_, ?_, ?_, ?_, ?_, ?_, ?_, ?_, ?_⟩ <;> simp [loadLoop]
  | cons p rest ih =>
      intro l config
      rcases hread : env.readFile p with _ | d
      · by_cases hflag : l.Implements IgnoreMissingFiles = true
        · have hstep : loadLoop env l config (p :: rest) =
              loadLoop env { l with skippedPaths := l.skippedPaths ++ [p] } config rest := by
            simp [loadLoop, hread, hflag]
          obtain ⟨dl, ds, h1, h2, h3, h4, h5, h6, h7, h8, h9⟩ :=
            ih { l with skippedPaths := l.skippedPaths ++ [p] } config
          refine ⟨dl, p :: ds, ?_, ?_, ?_, ?_, ?_, ?_, ?_, ?_, ?_⟩
          · rw [hstep]; simpa using h1
          · rw [hstep, h2]; simp
          · rw [hstep]; simpa using h3
          · rw [hstep]; simpa using h4
          · exact h5.cons p
          · exact h6.cons₂ p
          · exact h7
          · intro q hq
            rcases List.mem_cons.mp hq with rfl | hq
            · simp [badPathB, hread]
            · exact h8 q hq
          · intro he q hq
            rw [hstep] at he
            rcases List.mem_cons.mp hq with rfl | hq
            · exact Or.inr (List.mem_cons_self _ _)
            · rcases h9 he q hq with hh | hh
              · exact Or.inl hh
              · exact Or.inr (List.mem_cons_of_mem _ hh)
        · simp only [Bool.not_eq_true] at hflag
          have hstep : loadLoop env l config (p :: rest) =
              (l, config, some (LoadErr.readErr p)) := by
            simp [loadLoop, hread, hflag]
          refine ⟨[], [], ?_, ?_, ?_, ?_, ?_, ?_, ?_, ?_, ?_⟩ <;> simp [hstep]
      · by_cases hok : env.decodeOk d = true
        · have hstep : loadLoop env l config (p :: rest) =
              loadLoop env { l with loadedPaths := l.loadedPaths ++ [p] }
                (env.decodeInto d config) rest := by
            simp [loadLoop, hread, hok]
          obtain ⟨dl, ds, h1, h2, h3, h4, h5, h6, h7, h8, h9⟩ :=
            ih { l with loadedPaths := l.loadedPaths ++ [p] } (env.decodeInto d config)
          refine ⟨p :: dl, ds, ?_, ?_, ?_, ?_, ?_, ?_, ?_, ?_, ?_⟩
          · rw [hstep, h1]; simp
          · rw [hstep]; simpa using h2
          · rw [hstep]; simpa using h3
          · rw [hstep]; simpa using h4
          · exact h5.cons₂ p
          · exact h6.cons p
          · intro q hq
            rcases List.mem_cons.mp hq with rfl | hq
            · simp [goodPathB, hread, hok]
            · exact h7 q hq
          · exact h8
          · intro he q hq
            rw [hstep] at he
            rcases List.mem_cons.mp hq with rfl | hq
            · exact Or.inl (List.mem_cons_self _ _)
            · rcases h9 he q hq with hh | hh
              · exact Or.inl (List.mem_cons_of_mem _ hh)
              · exact Or.inr hh
        · simp only [Bool.not_eq_true] at hok
          by_cases hflag : l.Implements IgnoreInvalidFiles = true
          · have hstep : loadLoop env l config (p :: rest) =
                loadLoop env { l with skippedPaths := l.skippedPaths ++ [p] } config rest := by
              simp [loadLoop, hread, hok, hflag]
            obtain ⟨dl, ds, h1, h2, h3, h4, h5, h6, h7, h8, h9⟩ :=
              ih { l with skippedPaths := l.skippedPaths ++ [p] } config
            refine ⟨dl, p :: ds, ?_, ?_, ?_, ?_, ?_, ?_, ?_, ?_, ?_⟩
            · rw [hstep]; simpa using h1
            · rw [hstep, h2]; simp
            · rw [hstep]; simpa using h3
            · rw [hstep]; simpa using h4
            · exact h5.cons p
            · exact h6.cons₂ p
            · exact h7
            · intro q hq
              rcases List.mem_cons.mp hq with rfl | hq
              · simp [badPathB, hread, hok]
              · exact h8 q hq
            · intro he q hq
              rw [hstep] at he
              rcases List.mem_cons.mp hq with rfl | hq
              · exact Or.inr (List.mem_cons_self _ _)
              · rcases h9 he q hq with hh | hh
                · exact Or.inl hh
                · exact Or.inr (List.mem_cons_of_mem _ hh)
          · simp only [Bool.not_eq_true] at hflag
            have hstep : loadLoop env l config (p :: rest) =
                (l, config, some (LoadErr.decodeErr p)) := by
              simp [loadLoop, hread, hok, hflag]
            refine ⟨[], [], ?_, ?_, ?_, ?_, ?_, ?_, ?_, ?_, ?_⟩ <;> simp [hstep]

/-- The scan never changes the flag bits. -/
lemma loadLoop_flags (env : Env σ) (paths : List String) (l : Loader) (config : σ) :
    (loadLoop env l config paths).1.loaderFlags = l.loaderFlags := by
  obtain ⟨dl, ds, -, -, -, h4, -⟩ := loadLoop_invariant env paths l config
  exact h4

/-- A scan over `xs ++ ys` that does not abort inside `xs` continues
from the state reached after `xs`. -/
lemma loadLoop_append (env : Env σ) (xs : List String) :
    ∀ (l : Loader) (config : σ) (l₁ : Loader) (c₁ : σ),
      loadLoop env l config xs = (l₁, c₁, none) →
      ∀ ys, loadLoop env l config (xs ++ ys) = loadLoop env l₁ c₁ ys := by
  induction xs with
  | nil =>
      intro l config l₁ c₁ h ys
      simp only [loadLoop, Prod.mk.injEq] at h
      obtain ⟨rfl, rfl, -⟩ := h
      simp
  | cons p rest ih =>
      intro l config l₁ c₁ h ys
      rcases hread : env.readFile p with _ | d
      · by_cases hflag : l.Implements IgnoreMissingFiles = true
        · rw [show loadLoop env l config (p :: rest) =
              loadLoop env { l with skippedPaths := l.skippedPaths ++ [p] } config rest from
            by simp [loadLoop, hread, hflag]] at h
          calc loadLoop env l config (p :: rest ++ ys)
              = loadLoop env { l with skippedPaths := l.skippedPaths ++ [p] } config
                  (rest ++ ys) := by simp [loadLoop, hread, hflag]
            _ = loadLoop env l₁ c₁ ys := ih _ _ _ _ h ys
        · simp only [Bool.not_eq_true] at hflag
          simp [loadLoop, hread, hflag, Prod.mk.injEq] at h
      · by_cases hok : env.decodeOk d = true
        · rw [show loadLoop env l config (p :: rest) =
              loadLoop env { l with loadedPaths := l.loadedPaths ++ [p] }
                (env.decodeInto d config) rest from by simp [loadLoop, hread, hok]] at h
          calc loadLoop env l config (p :: rest ++ ys)
              = loadLoop env { l with loadedPaths := l.loadedPaths ++ [p] }
                  (env.decodeInto d config) (rest ++ ys) := by simp [loadLoop, hread, hok]
            _ = loadLoop env l₁ c₁ ys := ih _ _ _ _ h ys
        · simp only [Bool.not_eq_true] at hok
          by_cases hflag : l.Implements IgnoreInvalidFiles = true
          · rw [show loadLoop env l config (p :: rest) =
                loadLoop env { l with skippedPaths := l.skippedPaths ++ [p] } config rest from
              by simp [loadLoop, hread, hok, hflag]] at h
            calc loadLoop env l config (p :: rest ++ ys)
                = loadLoop env { l with skippedPaths := l.skippedPaths ++ [p] } config
                    (rest ++ ys) := by simp [loadLoop, hread, hok, hflag]
              _ = loadLoop env l₁ c₁ ys := ih _ _ _ _ h ys
          · simp only [Bool.not_eq_true] at hflag
            simp [loadLoop, hread, hok, hflag, Prod.mk.injEq] at h

/-- The argument-paths branch keeps every field except `lookupPaths`. -/
lemma argumentPathsStep_cases (env : Env σ) (l : Loader) :
    (∃ r, argumentPathsStep env l = ArgStep.ret r ∧
       r.RootPath = l.RootPath ∧ r.PreservedArgs = l.PreservedArgs ∧
       r.loadedPaths = l.loadedPaths ∧ r.skippedPaths = l.skippedPaths ∧
       r.loaderFlags = l.loaderFlags) ∨
    (∃ r, argumentPathsStep env l = ArgStep.fallthrough r ∧
       r.RootPath = l.RootPath ∧ r.PreservedArgs = l.PreservedArgs ∧
       r.loadedPaths = l.loadedPaths ∧ r.skippedPaths = l.skippedPaths ∧
       r.loaderFlags = l.loaderFlags) ∨
    argumentPathsStep env l = ArgStep.crash := by
  simp only [argumentPathsStep]
  split_ifs <;>
    first
      | exact Or.inr (Or.inr rfl)
      | exact Or.inl ⟨_, rfl, rfl, rfl, rfl, rfl, rfl⟩
      | exact Or.inr (Or.inl ⟨_, rfl, rfl, rfl, rfl, rfl, rfl⟩)

/-- Path resolution only rewrites `lookupPaths`. -/
lemma createLookupPaths_immutable (env : Env σ) {l lr : Loader}
    (h : createLookupPaths env l = some lr) :
    lr.RootPath = l.RootPath ∧ lr.PreservedArgs = l.PreservedArgs ∧
    lr.loadedPaths = l.loadedPaths ∧ lr.skippedPaths = l.skippedPaths ∧
    lr.loaderFlags = l.loaderFlags := by
  unfold createLookupPaths at h
  rcases argumentPathsStep_cases env l with
    ⟨r, hstep, hf1, hf2, hf3, hf4, hf5⟩ | ⟨r, hstep, hf1, hf2, hf3, hf4, hf5⟩ | hstep
  · rw [hstep] at h
    simp only [Option.some.injEq] at h
    subst h
    exact ⟨hf1, hf2, hf3, hf4, hf5⟩
  · rw [hstep] at h
    obtain ⟨hrp, hfl, hlo, hsk, hpa, -⟩ := defaultLookupPaths_cases env r lr h
    exact ⟨hrp.trans hf1, hpa.trans hf2, hlo.trans hf3, hsk.trans hf4, hfl.trans hf5⟩
  · rw [hstep] at h
    cases h

/-- Unfolding `Load` once the resolution step is known. -/
lemma Load_eq_some (env : Env σ) {l lr : Loader} (hres : createLookupPaths env l = some lr)
    (config : σ) :
    Load env l config =
      some (loadLoop env { lr with loadedPaths := [], skippedPaths := [] } config
        lr.lookupPaths) := by
  unfold Load
  rw [hres]

/-! ## Claims about the load loop -/

/-- C2: after any completed `Load` call, `loadedPaths` and
`skippedPaths` are disjoint ordered sub-sequences of the resolved
candidate sequence, and exhaust it when the call returns no error. -/
theorem load_partitions_candidates (env : Env σ) (l : Loader) (config : σ)
    (l' : Loader) (c' : σ) (e : Option LoadErr)
    (h : Load env l config = some (l', c', e)) :
    (∀ p, p ∈ l'.loadedPaths → p ∉ l'.skippedPaths) ∧
    l'.loadedPaths.Sublist l'.lookupPaths ∧
    l'.skippedPaths.Sublist l'.lookupPaths ∧
    (e = none → ∀ p ∈ l'.lookupPaths, p ∈ l'.loadedPaths ∨ p ∈ l'.skippedPaths) := by
  unfold Load at h
  rcases hres : createLookupPaths env l with _ | lr
  · rw [hres] at h; cases h
  · rw [hres] at h
    simp only [Option.some.injEq] at h
    obtain ⟨dl, ds, h1, h2, h3, h4, h5, h6, h7, h8, h9⟩ :=
      loadLoop_invariant env lr.lookupPaths
        { lr with loadedPaths := [], skippedPaths := [] } config
    simp only [h, List.nil_append] at h1 h2 h3 h9
    refine ⟨?_, ?_, ?_, ?_⟩
    · intro p hp hps
      rw [h1] at hp
      rw [h2] at hps
      have hg := h7 p hp
      have hb := h8 p hps
      rcases hrf : env.readFile p with _ | d
      · simp [goodPathB, hrf] at hg
      · simp [goodPathB, hrf] at hg
        simp [badPathB, hrf, hg] at hb
    · rw [h1, h3]; exact h5
    · rw [h2, h3]; exact h6
    · intro he q hq
      rw [h1, h2]
      rw [h3] at hq
      exact h9 he q hq

/-- Witness for C2: a two-candidate argument-path load where the first
candidate loads and the malformed second is tolerated as skipped. -/
theorem load_partitions_candidates_witness :
    Load exEnv2 exLoader2 0 = some (exLoadOut2, 2, none) ∧
    ((∀ p, p ∈ exLoadOut2.loadedPaths → p ∉ exLoadOut2.skippedPaths) ∧
     exLoadOut2.loadedPaths.Sublist exLoadOut2.lookupPaths ∧
     exLoadOut2.skippedPaths.Sublist exLoadOut2.lookupPaths ∧
     ((none : Option LoadErr) = none →
       ∀ p ∈ exLoadOut2.lookupPaths,
         p ∈ exLoadOut2.loadedPaths ∨ p ∈ exLoadOut2.skippedPaths)) :=
  ⟨by rfl, load_partitions_candidates exEnv2 exLoader2 0 exLoadOut2 2 none (by rfl)⟩

/-- C3: on a read failure, `IgnoreMissingFiles` turns the candidate
into a skip and the scan continues; without it the read error is the
call's result and the state is exactly the one reached before the
failing candidate. -/
theorem read_failure_policy (env : Env σ) (l lr l₁ : Loader) (config c₁ : σ)
    (lpre lpost : List String) (p : String)
    (hres : createLookupPaths env l = some lr)
    (hpaths : lr.lookupPaths = lpre ++ p :: lpost)
    (hpre : loadLoop env { lr with loadedPaths := [], skippedPaths := [] } config lpre =
      (l₁, c₁, none))
    (hread : env.readFile p = none) :
    (l.Implements IgnoreMissingFiles = false →
        Load env l config = some (l₁, c₁, some (LoadErr.readErr p))) ∧
    (l.Implements IgnoreMissingFiles = true →
        Load env l config =
          some (loadLoop env { l₁ with skippedPaths := l₁.skippedPaths ++ [p] } c₁ lpost)) := by
  have hfl : l₁.loaderFlags = l.loaderFlags := by
    have h1 := loadLoop_flags env lpre { lr with loadedPaths := [], skippedPaths := [] } config
    rw [hpre] at h1
    have h2 := (createLookupPaths_immutable env hres).2.2.2.2
    simpa [h2] using h1
  have hLoad := Load_eq_some env hres config
  rw [hpaths] at hLoad hpre
  rw [loadLoop_append env lpre _ config l₁ c₁ hpre (p :: lpost)] at hLoad
  constructor
  · intro hflag
    have hflag1 : l₁.Implements IgnoreMissingFiles = false :=
      (Implements_of_flags_eq hfl IgnoreMissingFiles).trans hflag
    rw [hLoad]
    simp [loadLoop, hread, hflag1]
  · intro hflag
    have hflag1 : l₁.Implements IgnoreMissingFiles = true :=
      (Implements_of_flags_eq hfl IgnoreMissingFiles).trans hflag
    rw [hLoad]
    simp [loadLoop, hread, hflag1]

/-- Witness for C3 without the tolerance flag: the read error on `"B"`
aborts with exactly the pre-failure state, leaving `"C"` unattempted. -/
theorem read_failure_policy_witness :
    exLoader3.Implements IgnoreMissingFiles = false ∧
    Load exEnv3 exLoader3 0 = some (exL13, 2, some (LoadErr.readErr "B")) :=
  ⟨by decide,
    (read_failure_policy exEnv3 exLoader3 exLr3 exL13 0 2 ["A"] ["C"] "B"
        (by rfl) (by rfl) (by rfl) (by rfl)).1 (by decide)⟩

/-- C4: with no tolerance flags and candidates `[A, B]` where `A` is
valid and `B` is malformed, the call returns the decode error with
`loadedPaths = [A]`, `skippedPaths = []`, and only `A` merged. -/
theorem decode_failure_aborts (env : Env σ) (l lr : Loader) (config : σ) (A B da db : String)
    (hmiss : l.Implements IgnoreMissingFiles = false)
    (hinv : l.Implements IgnoreInvalidFiles = false)
    (hres : createLookupPaths env l = some lr)
    (hpaths : lr.lookupPaths = [A, B])
    (hA : env.readFile A = some da) (hAok : env.decodeOk da = true)
    (hB : env.readFile B = some db) (hBok : env.decodeOk db = false) :
    Load env l config =
      some ({ lr with loadedPaths := [A], skippedPaths := [] },
            env.decodeInto da config, some (LoadErr.decodeErr B)) := by
  have hfl := (createLookupPaths_immutable env hres).2.2.2.2
  have hgen : ∀ (lp a b : List String),
      Loader.Implements { lr with lookupPaths := lp, loadedPaths := a, skippedPaths := b }
        IgnoreInvalidFiles = false := by
    intro lp a b
    have hq : ({ lr with lookupPaths := lp, loadedPaths := a, skippedPaths := b } :
        Loader).loaderFlags = l.loaderFlags := by simpa using hfl
    exact (Implements_of_flags_eq hq IgnoreInvalidFiles).trans hinv
  rw [Load_eq_some env hres config, hpaths]
  simp [loadLoop, hA, hAok, hB, hBok, hgen]

/-- Witness for C4: `"A"` decodes into the target, `"B"` is malformed,
and the call aborts with the decode error. -/
theorem decode_failure_aborts_witness :
    exLoader3.Implements IgnoreMissingFiles = false ∧
    exLoader3.Implements IgnoreInvalidFiles = false ∧
    Load exEnv2 exLoader3 0 =
      some ({ exLr4 with loadedPaths := ["A"], skippedPaths := [] },
            exEnv2.decodeInto "da" 0, some (LoadErr.decodeErr "B")) :=
  ⟨by decide, by decide,
    decode_failure_aborts exEnv2 exLoader3 exLr4 0 "A" "B" "da" "db"
      (by decide) (by decide) (by rfl) (by rfl) (by rfl) (by decide) (by rfl) (by decide)⟩

/-- C9: the result of a `Load` call does not depend on the
`lookupPaths`, `loadedPaths` or `skippedPaths` left by any previous
call — the lists are reset before the scan, so successive calls
replace rather than accumulate. -/
theorem load_resets_path_lists (env : Env σ) (l : Loader) (config : σ)
    (a b lp a' b' lp' : List String) :
    Load env { l with loadedPaths := a, skippedPaths := b, lookupPaths := lp } config =
    Load env { l with loadedPaths := a', skippedPaths := b', lookupPaths := lp' } config := by
  unfold Load
  simp only [createLookupPaths_eq]
  cases hres : resolveSequence env l.RootPath l.PreservedArgs l.loaderFlags <;>
    simp [hres]

end Conf
